import Mathlib

/-!
Shallow embedding of the TRMS mock service (src/trms.py, src/account.py).

Accounts and transactions are rows of in-memory tables kept in insertion
order.  Monetary values (Python `Decimal`) are modelled as exact rationals;
timestamps as natural numbers.  `Account.query.get` is modelled as the first
row with the given primary key, and a SQLAlchemy attribute mutation on the
fetched object as an update of that first row.
-/

namespace TRMS

/-- A row of the `accounts` table (src/account.py, class `Account`). -/
structure Account where
  id : String
  name : String
  currency : String
  account_type : String
  status : String
  balance : ℚ
  created_at : Nat
deriving DecidableEq, Repr

/-- A row of the `transactions` table (src/account.py, class `Transaction`). -/
structure Transaction where
  id : String
  from_account : String
  to_account : String
  amount : ℚ
  currency : String
  description : String
  status : String
  created_at : Nat
deriving DecidableEq, Repr

/-- The database state: both tables in insertion order. -/
structure DB where
  accounts : List Account
  transactions : List Transaction
deriving DecidableEq, Repr

/-- The JSON body of a POST /transactions request.  A field is `none` when
absent from the payload (`field not in data` in the code).  The amount is
the rational value of `Decimal(str(data['amount']))`. -/
structure TransferRequest where
  from_account : Option String
  to_account : Option String
  amount : Option ℚ
  currency : Option String
  description : Option String
deriving DecidableEq, Repr

/-- Python's `str.upper()`: uppercase every character. -/
def pyUpper (s : String) : String :=
  ⟨s.data.map Char.toUpper⟩

/-- Model of `Account.query.get(accId)`: the first row keyed by `accId`, if any. -/
def queryGet (db : DB) (accId : String) : Option Account :=
  db.accounts.find? (fun a => a.id == accId)

/-- The balance of the account `accId` resolves to, if any. -/
def balanceOf (db : DB) (accId : String) : Option ℚ :=
  (queryGet db accId).map Account.balance

/-- Mutating `acc.balance` on the object fetched by `Account.query.get`:
updates the balance of the first row keyed by `accId`. -/
def updateBalance (accId : String) (f : ℚ → ℚ) : List Account → List Account
  | [] => []
  | a :: as =>
    if a.id == accId then { a with balance := f a.balance } :: as
    else a :: updateBalance accId f as

/-- Outcome of POST /transactions (`create_transaction` in src/trms.py).
`missingField f` is the 400 response naming `f`; `sourceNotFound` /
`targetNotFound` are the 404 responses; `insufficientFunds` the 400
response; `success t` the 201 response carrying the new row `t`. -/
inductive TransferResult where
  | missingField (field : String)
  | sourceNotFound
  | targetNotFound
  | insufficientFunds
  | success (txn : Transaction)
deriving DecidableEq, Repr

/-- Whether the result is the 201 success response. -/
def TransferResult.isSuccess : TransferResult → Bool
  | .success _ => true
  | _ => false

/-- POST /transactions: `create_transaction` (src/trms.py lines 28-73).  `txnId` stands for the
generated `TXN-…` id and `now` for `datetime.utcnow()` at commit.  The
required-field loop checks `from_account`, `to_account`, `amount`,
`currency` in that order; then the two lookups, the source-existence and
target-existence checks, the funds check, and finally the two balance
mutations and the append. -/
def create_transaction (db : DB) (req : TransferRequest) (txnId : String)
    (now : Nat) : TransferResult × DB :=
  match req.from_account, req.to_account, req.amount, req.currency with
  | none, _, _, _ => (.missingField "from_account", db)
  | some _, none, _, _ => (.missingField "to_account", db)
  | some _, some _, none, _ => (.missingField "amount", db)
  | some _, some _, some _, none => (.missingField "currency", db)
  | some fromId, some toId, some amount, some curr =>
    match queryGet db fromId with
    | none => (.sourceNotFound, db)
    | some fromAcc =>
      match queryGet db toId with
      | none => (.targetNotFound, db)
      | some _ =>
        if fromAcc.balance < amount then (.insufficientFunds, db)
        else
          let txn : Transaction :=
            { id := txnId, from_account := fromId, to_account := toId,
              amount := amount, currency := pyUpper curr,
              description := req.description.getD "",
              status := "Completed", created_at := now }
          let accs1 := updateBalance fromId (fun b => b - amount) db.accounts
          let accs2 := updateBalance toId (fun b => b + amount) accs1
          (.success txn,
           { accounts := accs2, transactions := db.transactions ++ [txn] })

/-- GET /accounts (src/trms.py lines 8-16): with a truthy `currency` query
parameter the table is filtered by equality against the uppercased value;
otherwise (absent or empty string, both falsy in Python) all rows are
returned. -/
def get_accounts (db : DB) (currency : Option String) : List Account :=
  match currency with
  | some c =>
    if c = "" then db.accounts
    else db.accounts.filter (fun a => a.currency == pyUpper c)
  | none => db.accounts

/-- Stable descending insertion by `created_at`: the new row is placed
before the first row that is strictly older, hence after every row at
least as recent. -/
def insertByTime (t : Transaction) : List Transaction → List Transaction
  | [] => [t]
  | u :: us =>
    if u.created_at ≤ t.created_at then t :: u :: us
    else u :: insertByTime t us

/-- One concrete descending ordering of the transaction table: the stable
insertion sort of the table in insertion order, most recent first.  It is
one admissible engine behaviour for `ORDER BY created_at DESC`, used below
to show the query's guarantee is satisfiable — not the guarantee itself. -/
def sortDesc : List Transaction → List Transaction
  | [] => []
  | t :: ts => insertByTime t (sortDesc ts)

/-- GET /transactions (src/trms.py lines 75-79):
`Transaction.query.order_by(Transaction.created_at.desc()).all()`.  The
route delegates the ordering to the database; SQL fixes the returned row
multiset and the weakly descending order of the `created_at` keys, but
leaves the relative order of rows with equal `created_at` to the engine.
The route is therefore modelled as the relation between the table and the
result lists the engine may return. -/
def get_transactions (db : DB) (result : List Transaction) : Prop :=
  result.Perm db.transactions ∧
  result.Pairwise (fun a b => b.created_at ≤ a.created_at)

/-- Running a batch of transfer requests in sequence; each triple carries
the generated transaction id and the commit timestamp. -/
def runTransfers (db : DB) : List (TransferRequest × String × Nat) → DB
  | [] => db
  | (req, tid, now) :: rest =>
    runTransfers (create_transaction db req tid now).2 rest

/-! ### Basic lemmas about the account-table update -/

/-- Reading back the updated key: the first row keyed by `i` has its balance
mapped through `f`, everything else about it unchanged. -/
theorem find_updateBalance_self (i : String) (f : ℚ → ℚ) (l : List Account) :
    (updateBalance i f l).find? (fun a => a.id == i) =
      (l.find? (fun a => a.id == i)).map
        (fun a => { a with balance := f a.balance }) := by
  induction l with
  | nil => rfl
  | cons a as ih =>
    by_cases h : a.id = i
    · simp [updateBalance, List.find?_cons, h]
    · simp [updateBalance, List.find?_cons, h, ih]

/-- Updating key `i` does not change the row another key `j` resolves to. -/
theorem find_updateBalance_ne (i j : String) (hne : j ≠ i) (f : ℚ → ℚ)
    (l : List Account) :
    (updateBalance i f l).find? (fun a => a.id == j) =
      l.find? (fun a => a.id == j) := by
  induction l with
  | nil => rfl
  | cons a as ih =>
    by_cases h : a.id = i
    · have hji : (i == j) = false := by
        simp only [beq_eq_false_iff_ne]
        exact Ne.symm hne
      simp [updateBalance, List.find?_cons, h, hji]
    · by_cases hj : a.id = j
      · simp [updateBalance, List.find?_cons, h, hj, hne]
      · simp [updateBalance, List.find?_cons, h, hj, ih]

/-- Every row of the updated table is an old row, or the first row keyed by
`i` with its balance mapped through `f`. -/
theorem mem_updateBalance (i : String) (f : ℚ → ℚ) (l : List Account)
    (b : Account) (hb : b ∈ updateBalance i f l) :
    b ∈ l ∨ ∃ x, l.find? (fun a => a.id == i) = some x ∧
      b = { x with balance := f x.balance } := by
  induction l with
  | nil => simp [updateBalance] at hb
  | cons a as ih =>
    by_cases h : a.id = i
    · rw [show updateBalance i f (a :: as) =
          { a with balance := f a.balance } :: as by
        simp [updateBalance, h]] at hb
      rcases List.mem_cons.mp hb with hb | hb
      · exact Or.inr ⟨a, by simp [List.find?_cons, h], hb⟩
      · exact Or.inl (List.mem_cons_of_mem _ hb)
    · have hbe : (a.id == i) = false := by simp [h]
      rw [show updateBalance i f (a :: as) = a :: updateBalance i f as by
        simp [updateBalance, h]] at hb
      rcases List.mem_cons.mp hb with hb | hb
      · exact Or.inl (by simp [hb])
      · rcases ih hb with hb | ⟨x, hx, hbx⟩
        · exact Or.inl (List.mem_cons_of_mem _ hb)
        · exact Or.inr ⟨x, by simp [List.find?_cons, hbe, hx], hbx⟩

/-- Row-by-row shape of the update: each row is unchanged, or is the row
keyed by `i` with only its balance rewritten. -/
theorem forall2_updateBalance (i : String) (f : ℚ → ℚ) (l : List Account) :
    List.Forall₂
      (fun a a' => a' = a ∨ (a.id = i ∧ a' = { a with balance := f a.balance }))
      l (updateBalance i f l) := by
  induction l with
  | nil => exact List.Forall₂.nil
  | cons a as ih =>
    by_cases h : a.id = i
    · rw [show updateBalance i f (a :: as) =
          { a with balance := f a.balance } :: as by
        simp [updateBalance, h]]
      exact List.Forall₂.cons (Or.inr ⟨h, rfl⟩)
        (List.forall₂_same.mpr (fun x _ => Or.inl rfl))
    · rw [show updateBalance i f (a :: as) = a :: updateBalance i f as by
        simp [updateBalance, h]]
      exact List.Forall₂.cons (Or.inl rfl) ih

/-! ### Lemmas about the descending stable sort of the transaction log -/

theorem mem_insertByTime (t u : Transaction) (l : List Transaction) :
    u ∈ insertByTime t l ↔ u = t ∨ u ∈ l := by
  induction l with
  | nil => simp [insertByTime]
  | cons v vs ih =>
    by_cases h : v.created_at ≤ t.created_at
    · simp [insertByTime, h]
    · simp [insertByTime, h, ih]
      tauto

theorem perm_insertByTime (t : Transaction) (l : List Transaction) :
    (insertByTime t l).Perm (t :: l) := by
  induction l with
  | nil => simp [insertByTime]
  | cons v vs ih =>
    by_cases h : v.created_at ≤ t.created_at
    · simp [insertByTime, h]
    · rw [show insertByTime t (v :: vs) = v :: insertByTime t vs by
        simp [insertByTime, h]]
      exact (ih.cons v).trans (List.Perm.swap t v vs)

theorem perm_sortDesc (l : List Transaction) : (sortDesc l).Perm l := by
  induction l with
  | nil => simp [sortDesc]
  | cons t ts ih =>
    exact (perm_insertByTime t (sortDesc ts)).trans (ih.cons t)

theorem pairwise_insertByTime (t : Transaction) (l : List Transaction)
    (hl : l.Pairwise (fun a b => b.created_at ≤ a.created_at)) :
    (insertByTime t l).Pairwise (fun a b => b.created_at ≤ a.created_at) := by
  induction l with
  | nil => simp [insertByTime]
  | cons v vs ih =>
    rcases List.pairwise_cons.mp hl with ⟨hv, hvs⟩
    by_cases h : v.created_at ≤ t.created_at
    · rw [show insertByTime t (v :: vs) = t :: v :: vs by
        simp [insertByTime, h]]
      refine List.pairwise_cons.mpr ⟨?_, hl⟩
      intro u hu
      rcases List.mem_cons.mp hu with hu | hu
      · exact hu ▸ h
      · exact le_trans (hv u hu) h
    · rw [show insertByTime t (v :: vs) = v :: insertByTime t vs by
        simp [insertByTime, h]]
      refine List.pairwise_cons.mpr ⟨?_, ih hvs⟩
      intro u hu
      rcases (mem_insertByTime t u vs).mp hu with hu | hu
      · exact hu ▸ le_of_lt (lt_of_not_le h)
      · exact hv u hu

theorem pairwise_sortDesc (l : List Transaction) :
    (sortDesc l).Pairwise (fun a b => b.created_at ≤ a.created_at) := by
  induction l with
  | nil => simp [sortDesc]
  | cons t ts ih => exact pairwise_insertByTime t (sortDesc ts) ih

theorem filter_insertByTime (t : Transaction) (l : List Transaction) (c : Nat) :
    (insertByTime t l).filter (fun u => u.created_at == c) =
      (if t.created_at = c then [t] else []) ++
        l.filter (fun u => u.created_at == c) := by
  induction l with
  | nil =>
    by_cases hc : t.created_at = c <;> simp [insertByTime, hc]
  | cons v vs ih =>
    by_cases h : v.created_at ≤ t.created_at
    · rw [show insertByTime t (v :: vs) = t :: v :: vs by
        simp [insertByTime, h]]
      by_cases hc : t.created_at = c <;> simp [List.filter_cons, hc]
    · rw [show insertByTime t (v :: vs) = v :: insertByTime t vs by
        simp [insertByTime, h]]
      have hvc : v.created_at = c → t.created_at ≠ c := by
        intro hv ht
        exact h (by rw [hv, ht])
      by_cases hv : v.created_at = c
      · have htc : ¬ t.created_at = c := hvc hv
        simp [List.filter_cons, hv, htc] at ih ⊢
        exact ih
      · simp [List.filter_cons, hv] at ih ⊢
        exact ih

theorem filter_sortDesc (l : List Transaction) (c : Nat) :
    (sortDesc l).filter (fun u => u.created_at == c) =
      l.filter (fun u => u.created_at == c) := by
  induction l with
  | nil => simp [sortDesc]
  | cons t ts ih =>
    rw [sortDesc, filter_insertByTime]
    by_cases hc : t.created_at = c <;> simp [List.filter_cons, hc, ih]

/-! ### Characterization of the transfer operation -/

/-- Whatever the request, an unsuccessful POST /transactions leaves the
database exactly as it was: every return before the mutation block hands
back the untouched state. -/
theorem create_transaction_error_frame (db : DB) (req : TransferRequest)
    (tid : String) (now : Nat)
    (h : (create_transaction db req tid now).1.isSuccess = false) :
    (create_transaction db req tid now).2 = db := by
  rcases hf : req.from_account with _ | f
  · simp [create_transaction, hf]
  rcases ht : req.to_account with _ | t
  · simp [create_transaction, hf, ht]
  rcases ha : req.amount with _ | a
  · simp [create_transaction, hf, ht, ha]
  rcases hc : req.currency with _ | c
  · simp [create_transaction, hf, ht, ha, hc]
  rcases hfa : queryGet db f with _ | fa
  · simp [create_transaction, hf, ht, ha, hc, hfa]
  rcases hta : queryGet db t with _ | ta
  · simp [create_transaction, hf, ht, ha, hc, hfa, hta]
  by_cases hlt : fa.balance < a
  · simp [create_transaction, hf, ht, ha, hc, hfa, hta, hlt]
  · exfalso
    simp [create_transaction, hf, ht, ha, hc, hfa, hta, hlt,
      TransferResult.isSuccess] at h

/-- Inversion of a successful POST /transactions: the request fields are
those recorded on the returned row, both accounts resolved, the funds check
passed, and the new state is exactly the two balance updates plus the
appended row. -/
theorem create_transaction_success_inv (db : DB) (req : TransferRequest)
    (tid : String) (now : Nat) (txn : Transaction)
    (hs : (create_transaction db req tid now).1 = .success txn) :
    ∃ fa ta, req.from_account = some txn.from_account ∧
      req.to_account = some txn.to_account ∧
      req.amount = some txn.amount ∧
      queryGet db txn.from_account = some fa ∧
      queryGet db txn.to_account = some ta ∧
      ¬ fa.balance < txn.amount ∧
      txn.id = tid ∧ txn.status = "Completed" ∧ txn.created_at = now ∧
      (create_transaction db req tid now).2 =
        ⟨updateBalance txn.to_account (fun b => b + txn.amount)
           (updateBalance txn.from_account (fun b => b - txn.amount)
             db.accounts),
         db.transactions ++ [txn]⟩ := by
  rcases hf : req.from_account with _ | f
  · simp [create_transaction, hf] at hs
  rcases ht : req.to_account with _ | t
  · simp [create_transaction, hf, ht] at hs
  rcases ha : req.amount with _ | a
  · simp [create_transaction, hf, ht, ha] at hs
  rcases hc : req.currency with _ | c
  · simp [create_transaction, hf, ht, ha, hc] at hs
  rcases hfa : queryGet db f with _ | fa
  · simp [create_transaction, hf, ht, ha, hc, hfa] at hs
  rcases hta : queryGet db t with _ | ta
  · simp [create_transaction, hf, ht, ha, hc, hfa, hta] at hs
  by_cases hlt : fa.balance < a
  · simp [create_transaction, hf, ht, ha, hc, hfa, hta, hlt] at hs
  · simp only [create_transaction, hf, ht, ha, hc, hfa, hta, hlt,
      if_false] at hs ⊢
    injection hs with h
    subst h
    exact ⟨fa, ta, rfl, rfl, rfl, hfa, hta, hlt, rfl, rfl, rfl, rfl⟩

/-- The success path itself: with all four fields present, both accounts
resolving and sufficient funds, the operation returns 201 with the new row
and commits the two balance updates and the append. -/
theorem create_transaction_success_eq (db : DB) (req : TransferRequest)
    (tid : String) (now : Nat) (f t : String) (a : ℚ) (c : String)
    (fa ta : Account)
    (hf : req.from_account = some f) (ht : req.to_account = some t)
    (ha : req.amount = some a) (hc : req.currency = some c)
    (hfa : queryGet db f = some fa) (hta : queryGet db t = some ta)
    (hge : ¬ fa.balance < a) :
    create_transaction db req tid now =
      (.success ⟨tid, f, t, a, pyUpper c, req.description.getD "",
         "Completed", now⟩,
       ⟨updateBalance t (fun b => b + a)
          (updateBalance f (fun b => b - a) db.accounts),
        db.transactions ++ [⟨tid, f, t, a, pyUpper c,
          req.description.getD "", "Completed", now⟩]⟩) := by
  simp [create_transaction, hf, ht, ha, hc, hfa, hta, hge]

/-- Composing two row-by-row relations between tables. -/
theorem forall2_comp {α : Type} {P Q R : α → α → Prop} {l m n : List α}
    (h : ∀ a b c, P a b → Q b c → R a c)
    (h1 : List.Forall₂ P l m) (h2 : List.Forall₂ Q m n) :
    List.Forall₂ R l n := by
  induction h1 generalizing n with
  | nil => cases h2; exact List.Forall₂.nil
  | cons hab hl ih =>
    cases h2 with
    | cons hbc h2' => exact List.Forall₂.cons (h _ _ _ hab hbc) (ih h2')

/-! ### Concrete sample data, in miniature after src/seed_data.py -/

def acctA : Account :=
  ⟨"ACC-1", "Trading Account USD", "USD", "Trading", "Active", 1000, 1⟩

def acctB : Account :=
  ⟨"ACC-2", "Settlement Account USD", "USD", "Settlement", "Inactive", 500, 2⟩

def acctC : Account :=
  ⟨"ACC-3", "Trading Account EUR", "EUR", "Trading", "Active", 0, 3⟩

def sampleDB : DB := ⟨[acctA, acctB, acctC], []⟩

/-! ### The claims -/

/-- C5: a transfer whose amount strictly exceeds the source balance is
rejected with the insufficient-funds error and leaves the database — both
tables — exactly as before, while an amount at most the source balance
passes this check and the operation returns 201. -/
theorem C5_insufficient_funds (db : DB) (req : TransferRequest)
    (tid : String) (now : Nat) (f t : String) (a : ℚ) (c : String)
    (fa ta : Account)
    (hf : req.from_account = some f) (ht : req.to_account = some t)
    (ha : req.amount = some a) (hc : req.currency = some c)
    (hfa : queryGet db f = some fa) (hta : queryGet db t = some ta) :
    (fa.balance < a →
      create_transaction db req tid now = (.insufficientFunds, db)) ∧
    (¬ fa.balance < a →
      (create_transaction db req tid now).1.isSuccess = true) := by
  constructor
  · intro hlt
    simp [create_transaction, hf, ht, ha, hc, hfa, hta, hlt]
  · intro hge
    rw [create_transaction_success_eq db req tid now f t a c fa ta
      hf ht ha hc hfa hta hge]
    rfl

/-- Witness for C5: transferring 2000 out of ACC-1, whose balance is 1000,
is rejected with `insufficientFunds` and changes nothing, and the funds
check also classifies this concrete input as the rejecting branch. -/
theorem C5_insufficient_funds_witness :
    queryGet sampleDB "ACC-1" = some acctA ∧
    queryGet sampleDB "ACC-2" = some acctB ∧
    acctA.balance < 2000 ∧
    create_transaction sampleDB
      ⟨some "ACC-1", some "ACC-2", some 2000, some "USD", none⟩ "TXN-W5" 9 =
      (.insufficientFunds, sampleDB) :=
  ⟨rfl, rfl, by norm_num [acctA],
    (C5_insufficient_funds sampleDB
      ⟨some "ACC-1", some "ACC-2", some 2000, some "USD", none⟩ "TXN-W5" 9
      "ACC-1" "ACC-2" 2000 "USD" acctA acctB
      rfl rfl rfl rfl rfl rfl).1 (by norm_num [acctA])⟩

/-- C7 counterexample: a query whose currency filter is present but empty
returns every account, while the claim — compare each account's currency
with the uppercased filter — would return no account of this table. -/
theorem C7_counterexample :
    get_accounts sampleDB (some "") = [acctA, acctB, acctC] ∧
    sampleDB.accounts.filter (fun a => a.currency == pyUpper "") = [] ∧
    ([acctA, acctB, acctC] : List Account) ≠ [] := by
  refine ⟨rfl, rfl, by simp⟩

/-- C7 (amended): a non-empty currency filter is uppercased and compared
exactly against each stored currency — hence case-insensitive in the query
value — while an absent or empty filter returns the whole table. -/
theorem C7_currency_filter (db : DB) :
    get_accounts db none = db.accounts ∧
    get_accounts db (some "") = db.accounts ∧
    ∀ c : String, c ≠ "" →
      get_accounts db (some c) =
        db.accounts.filter (fun a => a.currency == pyUpper c) := by
  refine ⟨rfl, rfl, fun c hc => ?_⟩
  simp [get_accounts, hc]

/-- Witness for C7 at the lowercase filter "usd" on the sample table. -/
theorem C7_currency_filter_witness :
    ("usd" : String) ≠ "" ∧
    get_accounts sampleDB (some "usd") =
      sampleDB.accounts.filter (fun a => a.currency == pyUpper "usd") :=
  ⟨by decide, (C7_currency_filter sampleDB).2.2 "usd" (by decide)⟩

def txnEarly : Transaction :=
  ⟨"TXN-A", "ACC-1", "ACC-2", 10, "USD", "", "Completed", 5⟩

def txnLate : Transaction :=
  ⟨"TXN-B", "ACC-2", "ACC-1", 20, "USD", "", "Completed", 5⟩

def dbC8 : DB := ⟨[], [txnEarly, txnLate]⟩

/-- C8 counterexample: on a log holding txnEarly then txnLate, two rows
with the same created_at, the list `[txnLate, txnEarly]` is an admissible
result of the query — a permutation of the log, weakly descending in
created_at — yet its equal-timestamp rows are in reverse of insertion
order, so the tie-breaking the claim asserts is not guaranteed by the
program. -/
theorem C8_counterexample :
    get_transactions dbC8 [txnLate, txnEarly] ∧
    txnEarly.created_at = txnLate.created_at ∧
    [txnLate, txnEarly] ≠ [txnEarly, txnLate] := by
  refine ⟨⟨List.Perm.swap txnEarly txnLate [], ?_⟩, rfl, ?_⟩
  · simp [txnEarly, txnLate]
  · simp [txnEarly, txnLate]

/-- C8 (amended): every result the engine may return for GET /transactions
is a permutation of the whole log, ordered by created_at descending, and at
each timestamp holds exactly the log's rows for that timestamp (up to
order); such a result always exists — the stable descending sort of the
log is one.  The relative order of rows with equal created_at is left
unspecified by the query. -/
theorem C8_transactions_ordered (db : DB) :
    get_transactions db (sortDesc db.transactions) ∧
    ∀ r, get_transactions db r →
      r.Perm db.transactions ∧
      r.Pairwise (fun a b => b.created_at ≤ a.created_at) ∧
      ∀ c : Nat, (r.filter (fun u => u.created_at == c)).Perm
        (db.transactions.filter (fun u => u.created_at == c)) :=
  ⟨⟨perm_sortDesc db.transactions, pairwise_sortDesc db.transactions⟩,
    fun _ hr => ⟨hr.1, hr.2, fun _ => hr.1.filter _⟩⟩

/-- Witness for C8: on the two-row equal-timestamp sample log, the
reversed list is an admissible result, and the theorem applied to it gives
the permutation, the descending order, and the per-timestamp row
preservation. -/
theorem C8_transactions_ordered_witness :
    get_transactions dbC8 [txnLate, txnEarly] ∧
    ([txnLate, txnEarly].Perm dbC8.transactions ∧
      [txnLate, txnEarly].Pairwise
        (fun a b => b.created_at ≤ a.created_at) ∧
      ∀ c : Nat,
        ([txnLate, txnEarly].filter (fun u => u.created_at == c)).Perm
          (dbC8.transactions.filter (fun u => u.created_at == c))) := by
  have hadm : get_transactions dbC8 [txnLate, txnEarly] :=
    ⟨List.Perm.swap txnEarly txnLate [], by simp [txnEarly, txnLate]⟩
  exact ⟨hadm, (C8_transactions_ordered dbC8).2 [txnLate, txnEarly] hadm⟩

/-- C10: `create_transaction` never inspects either account's status: with
the four fields present, both accounts resolving and the funds check
passing — and no assumption whatsoever on the statuses — the transfer
returns 201 and moves the balances. -/
theorem C10_status_ignored (db : DB) (req : TransferRequest)
    (tid : String) (now : Nat) (f t : String) (a : ℚ) (c : String)
    (fa ta : Account)
    (hf : req.from_account = some f) (ht : req.to_account = some t)
    (ha : req.amount = some a) (hc : req.currency = some c)
    (hfa : queryGet db f = some fa) (hta : queryGet db t = some ta)
    (hge : ¬ fa.balance < a) (hft : f ≠ t) :
    (create_transaction db req tid now).1.isSuccess = true ∧
    balanceOf (create_transaction db req tid now).2 f =
      some (fa.balance - a) ∧
    balanceOf (create_transaction db req tid now).2 t =
      some (ta.balance + a) := by
  rw [create_transaction_success_eq db req tid now f t a c fa ta
    hf ht ha hc hfa hta hge]
  refine ⟨rfl, ?_, ?_⟩
  · show ((updateBalance t _ (updateBalance f _ db.accounts)).find?
      (fun x => x.id == f)).map Account.balance = _
    rw [find_updateBalance_ne t f hft, find_updateBalance_self]
    rw [show db.accounts.find? (fun x => x.id == f) = some fa from hfa]
    rfl
  · show ((updateBalance t _ (updateBalance f _ db.accounts)).find?
      (fun x => x.id == t)).map Account.balance = _
    rw [find_updateBalance_self, find_updateBalance_ne f t (Ne.symm hft)]
    rw [show db.accounts.find? (fun x => x.id == t) = some ta from hta]
    rfl

/-- Witness for C10: ACC-2 has status Inactive, yet a transfer of 100 from
ACC-2 to ACC-1 succeeds and moves the balances 500 → 400 and 1000 → 1100. -/
theorem C10_status_ignored_witness :
    acctB.status = "Inactive" ∧
    queryGet sampleDB "ACC-2" = some acctB ∧
    queryGet sampleDB "ACC-1" = some acctA ∧
    ¬ acctB.balance < 100 ∧
    ((create_transaction sampleDB
        ⟨some "ACC-2", some "ACC-1", some 100, some "USD", none⟩
        "TXN-W10" 4).1.isSuccess = true ∧
      balanceOf (create_transaction sampleDB
        ⟨some "ACC-2", some "ACC-1", some 100, some "USD", none⟩
        "TXN-W10" 4).2 "ACC-2" = some (acctB.balance - 100) ∧
      balanceOf (create_transaction sampleDB
        ⟨some "ACC-2", some "ACC-1", some 100, some "USD", none⟩
        "TXN-W10" 4).2 "ACC-1" = some (acctA.balance + 100)) :=
  ⟨rfl, rfl, rfl, by norm_num [acctB],
    C10_status_ignored sampleDB
      ⟨some "ACC-2", some "ACC-1", some 100, some "USD", none⟩
      "TXN-W10" 4 "ACC-2" "ACC-1" 100 "USD" acctB acctA
      rfl rfl rfl rfl rfl rfl (by norm_num [acctB]) (by decide)⟩

def reqC1 : TransferRequest :=
  ⟨some "ACC-1", some "ACC-1", some 40, some "USD", none⟩

/-- C1 counterexample: the transfer of 40 from ACC-1 to ACC-1 succeeds with
a 201 Transaction, yet the source balance does not decrease by the amount:
it stays 1000, and 1000 ≠ 1000 − 40. -/
theorem C1_counterexample :
    (create_transaction sampleDB reqC1 "TXN-C1" 7).1 =
      .success ⟨"TXN-C1", "ACC-1", "ACC-1", 40, "USD", "", "Completed", 7⟩ ∧
    balanceOf sampleDB "ACC-1" = some 1000 ∧
    balanceOf (create_transaction sampleDB reqC1 "TXN-C1" 7).2 "ACC-1" =
      some 1000 ∧
    (1000 : ℚ) ≠ 1000 - 40 := by
  refine ⟨?_, rfl, ?_, by norm_num⟩
  · norm_num +decide [create_transaction, queryGet, sampleDB, acctA, acctB,
      acctC, reqC1, List.find?_cons, pyUpper]
  · norm_num +decide [create_transaction, queryGet, balanceOf, updateBalance,
      sampleDB, acctA, acctB, acctC, reqC1, List.find?_cons]

/-- C1 (amended): for every transfer that succeeds with distinct source and
target accounts, the source balance decreases by exactly the recorded
amount, the target balance increases by exactly it, and their sum is
conserved exactly — rational arithmetic, no rounding. -/
theorem C1_conservation (db : DB) (req : TransferRequest) (tid : String)
    (now : Nat) (txn : Transaction)
    (hs : (create_transaction db req tid now).1 = .success txn)
    (hne : txn.from_account ≠ txn.to_account) :
    ∃ bf bt, balanceOf db txn.from_account = some bf ∧
      balanceOf db txn.to_account = some bt ∧
      balanceOf (create_transaction db req tid now).2 txn.from_account =
        some (bf - txn.amount) ∧
      balanceOf (create_transaction db req tid now).2 txn.to_account =
        some (bt + txn.amount) ∧
      (bf - txn.amount) + (bt + txn.amount) = bf + bt := by
  obtain ⟨fa, ta, hf, ht, ha, hfa, hta, hge, _, _, _, hdb⟩ :=
    create_transaction_success_inv db req tid now txn hs
  refine ⟨fa.balance, ta.balance, by simp [balanceOf, hfa],
    by simp [balanceOf, hta], ?_, ?_, by ring⟩
  · rw [hdb]
    show ((updateBalance txn.to_account _
        (updateBalance txn.from_account _ db.accounts)).find?
          (fun x => x.id == txn.from_account)).map Account.balance = _
    rw [find_updateBalance_ne txn.to_account txn.from_account hne,
      find_updateBalance_self,
      show db.accounts.find? (fun x => x.id == txn.from_account) = some fa
        from hfa]
    rfl
  · rw [hdb]
    show ((updateBalance txn.to_account _
        (updateBalance txn.from_account _ db.accounts)).find?
          (fun x => x.id == txn.to_account)).map Account.balance = _
    rw [find_updateBalance_self,
      find_updateBalance_ne txn.from_account txn.to_account (Ne.symm hne),
      show db.accounts.find? (fun x => x.id == txn.to_account) = some ta
        from hta]
    rfl

/-- Witness for C1: the 300 transfer from ACC-1 to ACC-2 succeeds; 1000
becomes 700, 500 becomes 800, and 700 + 800 = 1000 + 500. -/
theorem C1_conservation_witness :
    (create_transaction sampleDB
        ⟨some "ACC-1", some "ACC-2", some 300, some "USD", none⟩
        "TXN-W1" 6).1 =
      .success ⟨"TXN-W1", "ACC-1", "ACC-2", 300, "USD", "", "Completed", 6⟩ ∧
    ("ACC-1" : String) ≠ "ACC-2" ∧
    (∃ bf bt,
      balanceOf sampleDB "ACC-1" = some bf ∧
      balanceOf sampleDB "ACC-2" = some bt ∧
      balanceOf (create_transaction sampleDB
        ⟨some "ACC-1", some "ACC-2", some 300, some "USD", none⟩
        "TXN-W1" 6).2 "ACC-1" = some (bf - 300) ∧
      balanceOf (create_transaction sampleDB
        ⟨some "ACC-1", some "ACC-2", some 300, some "USD", none⟩
        "TXN-W1" 6).2 "ACC-2" = some (bt + 300) ∧
      (bf - 300) + (bt + 300) = bf + bt) := by
  have hs : (create_transaction sampleDB
      ⟨some "ACC-1", some "ACC-2", some 300, some "USD", none⟩
      "TXN-W1" 6).1 =
      .success ⟨"TXN-W1", "ACC-1", "ACC-2", 300, "USD", "", "Completed", 6⟩ :=
    by rw [create_transaction_success_eq sampleDB _ "TXN-W1" 6
      "ACC-1" "ACC-2" 300 "USD" acctA acctB rfl rfl rfl rfl rfl rfl
      (by norm_num [acctA])]
       rfl
  exact ⟨hs, by decide,
    C1_conservation sampleDB _ "TXN-W1" 6 _ hs (by decide)⟩

def reqC2 : TransferRequest :=
  ⟨some "ACC-2", some "ACC-2", some 100, some "USD", some "self"⟩

/-- C2 counterexample: the self-transfer of 100 on ACC-2 is not rejected:
it returns 201 and appends a Transaction record to the previously empty
log. -/
theorem C2_counterexample :
    (create_transaction sampleDB reqC2 "TXN-C2" 8).1.isSuccess = true ∧
    (create_transaction sampleDB reqC2 "TXN-C2" 8).2.transactions =
      [⟨"TXN-C2", "ACC-2", "ACC-2", 100, "USD", "self", "Completed", 8⟩] := by
  constructor
  · norm_num +decide [create_transaction, queryGet, sampleDB, acctA, acctB,
      acctC, reqC2, List.find?_cons, TransferResult.isSuccess]
  · norm_num +decide [create_transaction, queryGet, updateBalance, sampleDB,
      acctA, acctB, acctC, reqC2, List.find?_cons, pyUpper]

/-- C2 (amended): a transfer with equal source and target ids is accepted
whenever the account exists with balance at least the amount: it returns
201, appends a Transaction record, and leaves every account balance
unchanged — the debit and credit cancel on the shared row. -/
theorem C2_self_transfer (db : DB) (req : TransferRequest) (tid : String)
    (now : Nat) (i : String) (a : ℚ) (c : String) (fa : Account)
    (hf : req.from_account = some i) (ht : req.to_account = some i)
    (ha : req.amount = some a) (hc : req.currency = some c)
    (hfa : queryGet db i = some fa) (hge : ¬ fa.balance < a) :
    (create_transaction db req tid now).1.isSuccess = true ∧
    (create_transaction db req tid now).2.transactions =
      db.transactions ++ [⟨tid, i, i, a, pyUpper c,
        req.description.getD "", "Completed", now⟩] ∧
    ∀ j, balanceOf (create_transaction db req tid now).2 j =
      balanceOf db j := by
  rw [create_transaction_success_eq db req tid now i i a c fa fa
    hf ht ha hc hfa hfa hge]
  refine ⟨rfl, rfl, fun j => ?_⟩
  by_cases hj : j = i
  · subst hj
    show ((updateBalance j _ (updateBalance j _ db.accounts)).find?
        (fun x => x.id == j)).map Account.balance = _
    rw [find_updateBalance_self, find_updateBalance_self,
      show db.accounts.find? (fun x => x.id == j) = some fa from hfa]
    simp [balanceOf, hfa]
  · show ((updateBalance i _ (updateBalance i _ db.accounts)).find?
        (fun x => x.id == j)).map Account.balance = _
    rw [find_updateBalance_ne i j hj, find_updateBalance_ne i j hj]
    rfl

/-- Witness for C2: the self-transfer of 100 on ACC-2 (balance 500) is
accepted, appends its record, and every balance reads back unchanged. -/
theorem C2_self_transfer_witness :
    queryGet sampleDB "ACC-2" = some acctB ∧
    ¬ acctB.balance < 100 ∧
    ((create_transaction sampleDB reqC2 "TXN-W2" 8).1.isSuccess = true ∧
      (create_transaction sampleDB reqC2 "TXN-W2" 8).2.transactions =
        [⟨"TXN-W2", "ACC-2", "ACC-2", 100, "USD", "self", "Completed", 8⟩] ∧
      ∀ j, balanceOf (create_transaction sampleDB reqC2 "TXN-W2" 8).2 j =
        balanceOf sampleDB j) :=
  ⟨rfl, by norm_num [acctB],
    C2_self_transfer sampleDB reqC2 "TXN-W2" 8 "ACC-2" 100 "USD" acctB
      rfl rfl rfl rfl rfl (by norm_num [acctB])⟩

def reqC3 : TransferRequest :=
  ⟨some "ACC-1", some "ACC-2", some 0, some "USD", none⟩

/-- C3 counterexample: a transfer of amount 0 is not rejected with an
invalid-amount error: it succeeds and appends a Completed record of amount
0 to the log. -/
theorem C3_counterexample :
    (create_transaction sampleDB reqC3 "TXN-C3" 9).1 =
      .success ⟨"TXN-C3", "ACC-1", "ACC-2", 0, "USD", "", "Completed", 9⟩ := by
  norm_num +decide [create_transaction, queryGet, sampleDB, acctA, acctB,
    acctC, reqC3, List.find?_cons, pyUpper]

/-- C3 (amended): the code performs no validation of the amount's value:
any parsed amount that is zero or negative always passes the funds check
against a non-negative source balance, and the transfer returns 201. -/
theorem C3_nonpositive_accepted (db : DB) (req : TransferRequest)
    (tid : String) (now : Nat) (f t : String) (a : ℚ) (c : String)
    (fa ta : Account)
    (hf : req.from_account = some f) (ht : req.to_account = some t)
    (ha : req.amount = some a) (hc : req.currency = some c)
    (hfa : queryGet db f = some fa) (hta : queryGet db t = some ta)
    (ha0 : a ≤ 0) (hb0 : 0 ≤ fa.balance) :
    (create_transaction db req tid now).1.isSuccess = true := by
  have hge : ¬ fa.balance < a := not_lt.mpr (le_trans ha0 hb0)
  rw [create_transaction_success_eq db req tid now f t a c fa ta
    hf ht ha hc hfa hta hge]
  rfl

/-- Witness for C3: the strictly negative amount −25 is accepted on the
sample accounts. -/
theorem C3_nonpositive_accepted_witness :
    queryGet sampleDB "ACC-1" = some acctA ∧
    queryGet sampleDB "ACC-2" = some acctB ∧
    ((-25 : ℚ) ≤ 0) ∧ ((0 : ℚ) ≤ acctA.balance) ∧
    (create_transaction sampleDB
      ⟨some "ACC-1", some "ACC-2", some (-25), some "USD", none⟩
      "TXN-W3" 9).1.isSuccess = true :=
  ⟨rfl, rfl, by norm_num, by norm_num [acctA],
    C3_nonpositive_accepted sampleDB
      ⟨some "ACC-1", some "ACC-2", some (-25), some "USD", none⟩
      "TXN-W3" 9 "ACC-1" "ACC-2" (-25) "USD" acctA acctB
      rfl rfl rfl rfl rfl rfl (by norm_num) (by norm_num [acctA])⟩

/-- C9: a transfer request — successful or not — preserves, row for row,
every account's id, name, currency, account_type, status and created_at;
a row can differ at all only in its balance, and only when its id is the
requested source or target account id; every other account is entirely
unchanged. -/
theorem C9_frame (db : DB) (req : TransferRequest) (tid : String)
    (now : Nat) :
    List.Forall₂ (fun a a' =>
        a'.id = a.id ∧ a'.name = a.name ∧ a'.currency = a.currency ∧
        a'.account_type = a.account_type ∧ a'.status = a.status ∧
        a'.created_at = a.created_at ∧
        (a' ≠ a → req.from_account = some a.id ∨ req.to_account = some a.id))
      db.accounts (create_transaction db req tid now).2.accounts := by
  rcases hr : (create_transaction db req tid now).1 with fld | _ | _ | _ | txn
  case missingField =>
    rw [create_transaction_error_frame db req tid now (by rw [hr]; rfl)]
    exact List.forall₂_same.mpr fun x _ =>
      ⟨rfl, rfl, rfl, rfl, rfl, rfl, fun hne => absurd rfl hne⟩
  case sourceNotFound =>
    rw [create_transaction_error_frame db req tid now (by rw [hr]; rfl)]
    exact List.forall₂_same.mpr fun x _ =>
      ⟨rfl, rfl, rfl, rfl, rfl, rfl, fun hne => absurd rfl hne⟩
  case targetNotFound =>
    rw [create_transaction_error_frame db req tid now (by rw [hr]; rfl)]
    exact List.forall₂_same.mpr fun x _ =>
      ⟨rfl, rfl, rfl, rfl, rfl, rfl, fun hne => absurd rfl hne⟩
  case insufficientFunds =>
    rw [create_transaction_error_frame db req tid now (by rw [hr]; rfl)]
    exact List.forall₂_same.mpr fun x _ =>
      ⟨rfl, rfl, rfl, rfl, rfl, rfl, fun hne => absurd rfl hne⟩
  case success =>
    obtain ⟨fa, ta, hf, ht, ha, hfa, hta, hge, _, _, _, hdb⟩ :=
      create_transaction_success_inv db req tid now txn hr
    rw [hdb]
    refine forall2_comp ?_
      (forall2_updateBalance txn.from_account
        (fun b => b - txn.amount) db.accounts)
      (forall2_updateBalance txn.to_account (fun b => b + txn.amount) _)
    rintro a b c (rfl | ⟨haf, rfl⟩) hbc
    · rcases hbc with rfl | ⟨hbt, rfl⟩
      · exact ⟨rfl, rfl, rfl, rfl, rfl, rfl, fun hne => absurd rfl hne⟩
      · exact ⟨rfl, rfl, rfl, rfl, rfl, rfl,
          fun _ => Or.inr (by rw [hbt]; exact ht)⟩
    · rcases hbc with rfl | ⟨hbt, rfl⟩
      · exact ⟨rfl, rfl, rfl, rfl, rfl, rfl,
          fun _ => Or.inl (by rw [haf]; exact hf)⟩
      · exact ⟨rfl, rfl, rfl, rfl, rfl, rfl,
          fun _ => Or.inl (by rw [haf]; exact hf)⟩

/-- Witness for C9 at a concrete 10-unit transfer on the sample table. -/
theorem C9_frame_witness :
    List.Forall₂ (fun a a' =>
        a'.id = a.id ∧ a'.name = a.name ∧ a'.currency = a.currency ∧
        a'.account_type = a.account_type ∧ a'.status = a.status ∧
        a'.created_at = a.created_at ∧
        (a' ≠ a →
          (some "ACC-1" : Option String) = some a.id ∨
          (some "ACC-2" : Option String) = some a.id))
      sampleDB.accounts
      (create_transaction sampleDB
        ⟨some "ACC-1", some "ACC-2", some 10, some "USD", none⟩
        "TXN-W9" 13).2.accounts :=
  C9_frame sampleDB
    ⟨some "ACC-1", some "ACC-2", some 10, some "USD", none⟩ "TXN-W9" 13

/-- Single-step no-overdraft: one request whose amount, when present, is
non-negative preserves non-negativity of every balance: the funds check
bounds the debit, and the credit only adds. -/
theorem step_nonneg (db : DB) (req : TransferRequest) (tid : String)
    (now : Nat) (hpos : ∀ a, req.amount = some a → 0 ≤ a)
    (h0 : ∀ acc ∈ db.accounts, 0 ≤ acc.balance) :
    ∀ acc ∈ (create_transaction db req tid now).2.accounts,
      0 ≤ acc.balance := by
  rcases hr : (create_transaction db req tid now).1 with fld | _ | _ | _ | txn
  case missingField =>
    rw [create_transaction_error_frame db req tid now (by rw [hr]; rfl)]
    exact h0
  case sourceNotFound =>
    rw [create_transaction_error_frame db req tid now (by rw [hr]; rfl)]
    exact h0
  case targetNotFound =>
    rw [create_transaction_error_frame db req tid now (by rw [hr]; rfl)]
    exact h0
  case insufficientFunds =>
    rw [create_transaction_error_frame db req tid now (by rw [hr]; rfl)]
    exact h0
  case success =>
    obtain ⟨fa, ta, hf, ht, ha, hfa, hta, hge, _, _, _, hdb⟩ :=
      create_transaction_success_inv db req tid now txn hr
    rw [hdb]
    have hamt : 0 ≤ txn.amount := hpos _ ha
    have hbound : txn.amount ≤ fa.balance := not_lt.mp hge
    have h1 : ∀ acc ∈ updateBalance txn.from_account
        (fun b => b - txn.amount) db.accounts, 0 ≤ acc.balance := by
      intro acc hacc
      rcases mem_updateBalance _ _ _ _ hacc with hmem | ⟨x, hx, rfl⟩
      · exact h0 _ hmem
      · have hxfa : x = fa := by
          have hq : queryGet db txn.from_account = some x := hx
          rw [hfa] at hq
          exact (Option.some.inj hq).symm
        dsimp only
        rw [hxfa]
        linarith
    intro acc hacc
    rcases mem_updateBalance _ _ _ _ hacc with hmem | ⟨x, hx, rfl⟩
    · exact h1 _ hmem
    · have hx0 : 0 ≤ x.balance := h1 _ (List.mem_of_find?_eq_some hx)
      dsimp only
      linarith

def reqC4 : TransferRequest :=
  ⟨some "ACC-1", some "ACC-3", some (-50), some "USD", none⟩

/-- C4 counterexample: all three sample balances start non-negative (1000,
500, 0), the single transfer of −50 from ACC-1 to ACC-3 succeeds, and
afterwards ACC-3's balance is −50, which is negative. -/
theorem C4_counterexample :
    balanceOf sampleDB "ACC-1" = some 1000 ∧
    balanceOf sampleDB "ACC-2" = some 500 ∧
    balanceOf sampleDB "ACC-3" = some 0 ∧
    (create_transaction sampleDB reqC4 "TXN-C4" 14).1.isSuccess = true ∧
    balanceOf (create_transaction sampleDB reqC4 "TXN-C4" 14).2 "ACC-3" =
      some (-50) ∧
    ((-50 : ℚ) < 0) := by
  refine ⟨rfl, rfl, rfl, ?_, ?_, by norm_num⟩
  · norm_num +decide [create_transaction, queryGet, sampleDB, acctA, acctB,
      acctC, reqC4, List.find?_cons, TransferResult.isSuccess]
  · norm_num +decide [create_transaction, queryGet, balanceOf, updateBalance,
      sampleDB, acctA, acctB, acctC, reqC4, List.find?_cons]

/-- C4 (amended): starting from non-negative balances, every sequence of
transfer requests whose amounts are non-negative keeps every account
balance non-negative.  (With a negative amount the funds check is vacuous
and the credited account can be overdrawn, as the counterexample shows.) -/
theorem C4_balances_nonneg (db : DB)
    (steps : List (TransferRequest × String × Nat))
    (hpos : ∀ s ∈ steps, ∀ a, s.1.amount = some a → 0 ≤ a)
    (h0 : ∀ acc ∈ db.accounts, 0 ≤ acc.balance) :
    ∀ acc ∈ (runTransfers db steps).accounts, 0 ≤ acc.balance := by
  induction steps generalizing db with
  | nil => exact h0
  | cons s rest ih =>
    obtain ⟨req, tid, now⟩ := s
    exact ih (create_transaction db req tid now).2
      (fun s' hs' a => hpos s' (List.mem_cons_of_mem _ hs') a)
      (step_nonneg db req tid now
        (fun a => hpos _ (List.mem_cons_self _ _) a) h0)

/-- Witness for C4: one 300 transfer from ACC-1 to ACC-2 on the sample
table keeps all balances non-negative. -/
theorem C4_balances_nonneg_witness :
    (∀ s ∈ [((⟨some "ACC-1", some "ACC-2", some 300, some "USD", none⟩ :
        TransferRequest), "TXN-W4", (15 : Nat))],
      ∀ a : ℚ, s.1.amount = some a → 0 ≤ a) ∧
    (∀ acc ∈ sampleDB.accounts, 0 ≤ acc.balance) ∧
    ∀ acc ∈ (runTransfers sampleDB
      [(⟨some "ACC-1", some "ACC-2", some 300, some "USD", none⟩,
        "TXN-W4", 15)]).accounts, 0 ≤ acc.balance := by
  have hpos : ∀ s ∈ [((⟨some "ACC-1", some "ACC-2", some 300, some "USD",
      none⟩ : TransferRequest), "TXN-W4", (15 : Nat))],
      ∀ a : ℚ, s.1.amount = some a → 0 ≤ a := by
    intro s hs a ha
    rw [List.mem_singleton] at hs
    subst hs
    obtain rfl : (300 : ℚ) = a := Option.some.inj ha
    norm_num
  have h0 : ∀ acc ∈ sampleDB.accounts, 0 ≤ acc.balance := by
    intro acc hacc
    rcases show acc = acctA ∨ acc = acctB ∨ acc = acctC by
        simpa [sampleDB] using hacc with rfl | rfl | rfl <;>
      norm_num [acctA, acctB, acctC]
  exact ⟨hpos, h0, C4_balances_nonneg sampleDB _ hpos h0⟩

def reqC6 : TransferRequest :=
  ⟨some "ACC-3", some "ACC-3", some 0, some "EUR", none⟩

/-- C6 counterexample: a request with equal (hence not distinct) source and
target ids and a zero (hence not valid per the claim) amount is not
rejected by any of the claimed checks: it succeeds with 201. -/
theorem C6_counterexample :
    (create_transaction sampleDB reqC6 "TXN-C6" 11).1.isSuccess = true := by
  norm_num +decide [create_transaction, queryGet, sampleDB, acctA, acctB,
    acctC, reqC6, List.find?_cons, TransferResult.isSuccess]

/-- C6 (amended): the validations the code actually performs, in its order:
presence of from_account, to_account, amount, currency — each missing field
answered by its own missingField error — then source lookup, then target
lookup, then the funds check, each with its distinct error; and every
non-success outcome leaves the database unchanged.  No id-content check
(non-empty or distinct) and no amount-value check is performed. -/
theorem C6_validation_order (db : DB) (req : TransferRequest)
    (tid : String) (now : Nat) :
    (req.from_account = none →
      create_transaction db req tid now = (.missingField "from_account", db)) ∧
    (req.from_account.isSome = true → req.to_account = none →
      create_transaction db req tid now = (.missingField "to_account", db)) ∧
    (req.from_account.isSome = true → req.to_account.isSome = true →
      req.amount = none →
      create_transaction db req tid now = (.missingField "amount", db)) ∧
    (req.from_account.isSome = true → req.to_account.isSome = true →
      req.amount.isSome = true → req.currency = none →
      create_transaction db req tid now = (.missingField "currency", db)) ∧
    (∀ f, req.from_account = some f → req.to_account.isSome = true →
      req.amount.isSome = true → req.currency.isSome = true →
      queryGet db f = none →
      create_transaction db req tid now = (.sourceNotFound, db)) ∧
    (∀ f t, req.from_account = some f → req.to_account = some t →
      req.amount.isSome = true → req.currency.isSome = true →
      (queryGet db f).isSome = true → queryGet db t = none →
      create_transaction db req tid now = (.targetNotFound, db)) ∧
    (∀ f t a fa, req.from_account = some f → req.to_account = some t →
      req.amount = some a → req.currency.isSome = true →
      queryGet db f = some fa → (queryGet db t).isSome = true →
      fa.balance < a →
      create_transaction db req tid now = (.insufficientFunds, db)) ∧
    ((create_transaction db req tid now).1.isSuccess = false →
      (create_transaction db req tid now).2 = db) := by
  refine ⟨?_, ?_, ?_, ?_, ?_, ?_, ?_,
    create_transaction_error_frame db req tid now⟩
  · intro hf
    simp [create_transaction, hf]
  · intro hf ht
    rcases Option.isSome_iff_exists.mp hf with ⟨f, hf'⟩
    simp [create_transaction, hf', ht]
  · intro hf ht ha
    rcases Option.isSome_iff_exists.mp hf with ⟨f, hf'⟩
    rcases Option.isSome_iff_exists.mp ht with ⟨t, ht'⟩
    simp [create_transaction, hf', ht', ha]
  · intro hf ht ha hc
    rcases Option.isSome_iff_exists.mp hf with ⟨f, hf'⟩
    rcases Option.isSome_iff_exists.mp ht with ⟨t, ht'⟩
    rcases Option.isSome_iff_exists.mp ha with ⟨a, ha'⟩
    simp [create_transaction, hf', ht', ha', hc]
  · intro f hf' ht ha hc hq
    rcases Option.isSome_iff_exists.mp ht with ⟨t, ht'⟩
    rcases Option.isSome_iff_exists.mp ha with ⟨a, ha'⟩
    rcases Option.isSome_iff_exists.mp hc with ⟨c, hc'⟩
    simp [create_transaction, hf', ht', ha', hc', hq]
  · intro f t hf' ht' ha hc hqf hqt
    rcases Option.isSome_iff_exists.mp ha with ⟨a, ha'⟩
    rcases Option.isSome_iff_exists.mp hc with ⟨c, hc'⟩
    rcases Option.isSome_iff_exists.mp hqf with ⟨fa, hfa⟩
    simp [create_transaction, hf', ht', ha', hc', hfa, hqt]
  · intro f t a fa hf' ht' ha' hc hfa hqt hlt
    rcases Option.isSome_iff_exists.mp hc with ⟨c, hc'⟩
    rcases Option.isSome_iff_exists.mp hqt with ⟨ta, hta⟩
    simp [create_transaction, hf', ht', ha', hc', hfa, hta, hlt]

def reqC6w : TransferRequest :=
  ⟨some "ACC-1", some "ACC-2", none, some "USD", none⟩

/-- Witness for C6: a request missing its amount field is answered by the
missing-amount error with the database unchanged. -/
theorem C6_validation_order_witness :
    reqC6w.amount = none ∧
    create_transaction sampleDB reqC6w "TXN-W6" 12 =
      (.missingField "amount", sampleDB) :=
  ⟨rfl, (C6_validation_order sampleDB reqC6w "TXN-W6" 12).2.2.1
    rfl rfl rfl⟩

end TRMS
